import Mathlib

/-!
Shallow embedding of the RentWheels server (`src/index.js`), an Express +
MongoDB backend.  Documents are modelled as association lists from field
names to string values; the three MongoDB collections (`carCollection`,
`bookings`, `users`) are lists of documents inside a `Store` record.  Each
route handler becomes a pure function from its inputs and the store to an
HTTP-level response together with the updated store.  The JWT guard is
modelled over an abstract `verify` function, and the booking route is
additionally given a small-step interleaving semantics so that schedules of
concurrent requests can be examined.
-/

namespace RentWheels

/-- A BSON-like document: an association list from field names to values
(all modelled as strings).  Field order is the insertion order. -/
abbrev Doc : Type := List (String × String)

/-- Reading a field of a document: the value of the first binding whose key
matches, as MongoDB / JavaScript property access does. -/
def getField (d : Doc) (k : String) : Option String :=
  (d.find? (fun p => p.1 == k)).map (fun p => p.2)

/-- MongoDB `$set` of a single field: overwrite the binding if the key is
present, append it otherwise. -/
def setField (d : Doc) (k v : String) : Doc :=
  if d.any (fun p => p.1 == k) then
    d.map (fun p => if p.1 == k then (k, v) else p)
  else
    d ++ [(k, v)]

/-- MongoDB `$set` with a whole patch document: each field of the patch is
set in order. -/
def mongoSet (d : Doc) (patch : Doc) : Doc :=
  patch.foldl (fun acc kv => setField acc kv.1 kv.2) d

/-- The state of the three MongoDB collections used by `index.js`:
`carCollection`, `bookings` and `users`. -/
structure Store where
  cars : List Doc
  bookings : List Doc
  users : List Doc
deriving DecidableEq, Repr

/-- An HTTP-level response as sent by the handlers: an error status with a
message, or a 200 payload (a list of documents, an insert / update / delete
result, or a bare message object). -/
inductive HResp where
  | errResp (status : Nat) (message : String)
  | okDocs (docs : List Doc)
  | okInsert (index : Nat)
  | okUpdate (matched : Nat)
  | okDelete (deleted : Nat)
  | okMsg (message : String)
deriving DecidableEq, Repr

/-- `updateOne {_id: id} {$set: patch}`: patch the first document whose
`_id` equals `id`, leave the rest unchanged. -/
def updateFirstById : List Doc → String → Doc → List Doc
  | [], _, _ => []
  | d :: ds, id, patch =>
    if getField d "_id" == some id then mongoSet d patch :: ds
    else d :: updateFirstById ds id patch

/-- `deleteOne {_id: id}`: remove the first document whose `_id` equals
`id`. -/
def deleteFirstById : List Doc → String → List Doc
  | [], _ => []
  | d :: ds, id =>
    if getField d "_id" == some id then ds
    else d :: deleteFirstById ds id

/-- `POST /users`: look the profile up by email; if found answer
`"User already exists"` without touching the collection, otherwise insert
it (`index.js` lines 67–73). -/
def postUsers (user : Doc) (s : Store) : HResp × Store :=
  match s.users.find? (fun d => getField d "email" == getField user "email") with
  | some _ => (.okMsg "User already exists", s)
  | none => (.okInsert s.users.length, { s with users := s.users ++ [user] })

/-- `POST /cars` (behind the guard): insert the request body as-is
(`index.js` lines 86–90). -/
def postCars (decoded : Doc) (car : Doc) (s : Store) : HResp × Store :=
  (.okInsert s.cars.length, { s with cars := s.cars ++ [car] })

/-- `GET /my-listings?email=` (behind the guard): `403` unless the decoded
claim's email equals the queried email, otherwise the cars whose
`providerEmail` is that email (`index.js` lines 106–111). -/
def getMyListings (decoded : Doc) (email : String) (s : Store) : HResp × Store :=
  if getField decoded "email" != some email then
    (.errResp 403 "Forbidden access", s)
  else
    (.okDocs (s.cars.filter (fun d => getField d "providerEmail" == some email)), s)

/-- `PUT /cars/:id` (behind the guard): `$set` the whole request body into
the car with the given id; the decoded claim is never consulted
(`index.js` lines 114–122). -/
def putCar (decoded : Doc) (id : String) (updatedCar : Doc) (s : Store) : HResp × Store :=
  (.okUpdate (if s.cars.any (fun d => getField d "_id" == some id) then 1 else 0),
   { s with cars := updateFirstById s.cars id updatedCar })

/-- `DELETE /cars/:id` (behind the guard): delete the car with the given
id; the decoded claim is never consulted (`index.js` lines 125–129). -/
def deleteCar (decoded : Doc) (id : String) (s : Store) : HResp × Store :=
  (.okDelete (if s.cars.any (fun d => getField d "_id" == some id) then 1 else 0),
   { s with cars := deleteFirstById s.cars id })

/-- The double-booking check's filter:
`findOne {carId: booking.carId, status: 'Booked'}` (`index.js` lines
139–142). -/
def isActiveBookingFor (carId : Option String) (d : Doc) : Bool :=
  getField d "carId" == carId && getField d "status" == some "Booked"

/-- `updateOne {_id: new ObjectId(booking.carId)} {$set: {status:'Booked'}}`
on the cars collection; an absent `carId` yields a freshly generated
`ObjectId`, which matches no stored document (`index.js` lines 147–150). -/
def updateCarStatusBooked (cars : List Doc) (carId : Option String) : List Doc :=
  match carId with
  | none => cars
  | some cid => updateFirstById cars cid [("status", "Booked")]

/-- `POST /bookings` (behind the guard), run in isolation: if some booking
with the same `carId` and status `Booked` exists answer `400` with no
mutation; otherwise insert the request body verbatim, then flip the
referenced car's status to `Booked` (`index.js` lines 135–152). -/
def postBooking (decoded : Doc) (booking : Doc) (s : Store) : HResp × Store :=
  match s.bookings.find? (isActiveBookingFor (getField booking "carId")) with
  | some _ => (.errResp 400 "This car is already booked", s)
  | none =>
    (.okInsert s.bookings.length,
     { s with
        bookings := s.bookings ++ [booking],
        cars := updateCarStatusBooked s.cars (getField booking "carId") })

/-- `GET /bookings?email=` (behind the guard): `403` unless the decoded
claim's email equals the queried email, otherwise the bookings whose
`userEmail` is that email (`index.js` lines 155–160). -/
def getBookings (decoded : Doc) (email : String) (s : Store) : HResp × Store :=
  if getField decoded "email" != some email then
    (.errResp 403 "Forbidden access", s)
  else
    (.okDocs (s.bookings.filter (fun d => getField d "userEmail" == some email)), s)

/-- One character of a `$regex` pattern against one character of text,
under the `i` option: `.` matches anything, any other pattern character
matches case-insensitively.  This models the fragment of regular-expression
syntax in which every character but `.` is a literal. -/
def regexCharMatches (p c : Char) : Bool :=
  p == '.' || p.toLower == c.toLower

/-- Does the pattern match a prefix of the text, character by character? -/
def regexMatchHere : List Char → List Char → Bool
  | [], _ => true
  | _ :: _, [] => false
  | p :: ps, c :: cs => regexCharMatches p c && regexMatchHere ps cs

/-- Unanchored regex search, as MongoDB `$regex` performs: does the pattern
match starting at some position of the text? -/
def regexSearch (pat : List Char) : List Char → Bool
  | [] => regexMatchHere pat []
  | c :: cs => regexMatchHere pat (c :: cs) || regexSearch pat cs

/-- `{name: {$regex: q, $options: 'i'}}` applied to one document: a
document without a (string) `name` field never matches. -/
def nameMatches (q : String) (d : Doc) : Bool :=
  match getField d "name" with
  | some n => regexSearch q.data n.data
  | none => false

/-- `GET /search?q=`: `req.query.q || ''` then a case-insensitive `$regex`
filter on `name` (`index.js` lines 167–173). -/
def getSearch (q : Option String) (s : Store) : HResp × Store :=
  (.okDocs (s.cars.filter (nameMatches (q.getD ""))), s)

/-- JavaScript `String.prototype.split` with a single-character separator:
empty fields between consecutive separators are kept, `""` splits to
`[""]`. -/
def jsSplit (sep : Char) : List Char → List (List Char)
  | [] => [[]]
  | c :: cs =>
    if c == sep then [] :: jsSplit sep cs
    else
      match jsSplit sep cs with
      | [] => [[c]]
      | f :: rest => (c :: f) :: rest

/-- `authHeader.split(' ')[1]`: the second space-delimited field of the
header, if any (`index.js` line 32). -/
def extractToken (h : String) : Option String :=
  ((jsSplit ' ' h.data).get? 1).map (fun l => l.asString)

/-- Outcome of the `verifyJWT` middleware: reject with 401, reject with
403, or forward to the handler with the decoded claim attached. -/
inductive GuardResult where
  | unauthorized
  | forbidden
  | proceed (decoded : Doc)
deriving DecidableEq, Repr

/-- The `verifyJWT` middleware (`index.js` lines 28–38), over an abstract
token verifier.  `!authHeader` is truthy for an absent and for an empty
header; `jwt.verify` of an absent token fails, which the abstract
`verify` models by its action on `none`. -/
def verifyJWT (verify : Option String → Option Doc) (authHeader : Option String) :
    GuardResult :=
  match authHeader with
  | none => .unauthorized
  | some h =>
    if h == "" then .unauthorized
    else
      match verify (extractToken h) with
      | none => .forbidden
      | some decoded => .proceed decoded

/-! ### Interleaving semantics of `POST /bookings`

The handler performs three awaited store operations in sequence: the
`findOne` conflict check, the `insertOne`, and the `updateOne` on the car.
Between any two of them the event loop may run another request's store
operation.  A concurrent execution of several booking requests is a
schedule of micro-steps, each advancing one request past its next store
operation. -/

/-- How far one in-flight `POST /bookings` request has progressed:
before its `findOne`, before its `insertOne`, before its `updateOne`, or
finished (with a conflict error or successfully). -/
inductive BookPhase where
  | checking
  | inserting
  | updating
  | doneConflict
  | doneSuccess
deriving DecidableEq, Repr

/-- One in-flight booking request: its payload and its progress. -/
structure BookOp where
  payload : Doc
  phase : BookPhase
deriving DecidableEq, Repr

/-- The store together with all in-flight booking requests. -/
structure ConcState where
  store : Store
  ops : List BookOp
deriving DecidableEq, Repr

/-- Advance one request past its next store operation.  Each branch is the
corresponding awaited step of `postBooking`. -/
def stepOp (st : Store) (op : BookOp) : Store × BookOp :=
  match op.phase with
  | .checking =>
    match st.bookings.find? (isActiveBookingFor (getField op.payload "carId")) with
    | some _ => (st, { op with phase := .doneConflict })
    | none => (st, { op with phase := .inserting })
  | .inserting =>
    ({ st with bookings := st.bookings ++ [op.payload] }, { op with phase := .updating })
  | .updating =>
    ({ st with cars := updateCarStatusBooked st.cars (getField op.payload "carId") },
     { op with phase := .doneSuccess })
  | .doneConflict => (st, op)
  | .doneSuccess => (st, op)

/-- Run one micro-step of the request at index `i` (out-of-range indices
are no-ops). -/
def bookStep (σ : ConcState) (i : Nat) : ConcState :=
  match σ.ops.get? i with
  | none => σ
  | some op =>
    let r := stepOp σ.store op
    { store := r.1, ops := σ.ops.set i r.2 }

/-- Run a whole schedule of micro-steps. -/
def runSchedule (σ : ConcState) (sched : List Nat) : ConcState :=
  sched.foldl bookStep σ

/-! ### Lemmas about documents and `$set` -/

theorem find?_map_replace (d : Doc) (k v : String) :
    (d.map (fun p => if p.1 == k then (k, v) else p)).find? (fun p => p.1 == k) =
      if d.any (fun p => p.1 == k) then some (k, v) else none := by
  induction d with
  | nil => rfl
  | cons p ds ih =>
    cases hp : (p.1 == k) with
    | true =>
      rw [List.map_cons, if_pos hp, List.find?_cons_of_pos _ (by simp)]
      simp [List.any_cons, hp]
    | false =>
      rw [List.map_cons, if_neg (by simp [hp]),
          List.find?_cons_of_neg (p := fun q : String × String => q.1 == k) _ (by simp [hp]), ih,
          List.any_cons, hp, Bool.false_or]

theorem find?_map_replace_ne (d : Doc) (k k' v : String) (hne : k' ≠ k) :
    (d.map (fun p => if p.1 == k' then (k', v) else p)).find? (fun p => p.1 == k) =
      d.find? (fun p => p.1 == k) := by
  induction d with
  | nil => rfl
  | cons p ds ih =>
    cases hp : (p.1 == k') with
    | true =>
      have hk : ¬((p.1 == k) = true) := by
        simp only [beq_iff_eq] at hp ⊢
        rw [hp]; exact hne
      rw [List.map_cons, if_pos hp,
          List.find?_cons_of_neg (p := fun q : String × String => q.1 == k) _ (by simp [hne]),
          List.find?_cons_of_neg (p := fun q : String × String => q.1 == k) _ hk, ih]
    | false =>
      cases hk : (p.1 == k) with
      | true =>
        rw [List.map_cons, if_neg (by simp [hp]),
            List.find?_cons_of_pos (p := fun q : String × String => q.1 == k) _ hk,
            List.find?_cons_of_pos (p := fun q : String × String => q.1 == k) _ hk]
      | false =>
        rw [List.map_cons, if_neg (by simp [hp]),
            List.find?_cons_of_neg (p := fun q : String × String => q.1 == k) _ (by simp [hk]),
            List.find?_cons_of_neg (p := fun q : String × String => q.1 == k) _ (by simp [hk]), ih]

theorem getField_setField (d : Doc) (k v : String) :
    getField (setField d k v) k = some v := by
  unfold setField
  cases h : (d.any fun p => p.1 == k) with
  | true =>
    rw [if_pos rfl]
    unfold getField
    rw [find?_map_replace, h]
    rfl
  | false =>
    rw [if_neg (by simp)]
    simp only [getField, List.find?_append]
    rw [List.find?_eq_none.mpr, Option.none_or, List.find?_cons_of_pos _ (by simp)]
    · rfl
    · intro x hx hpx
      have : d.any (fun p => p.1 == k) = true := List.any_eq_true.mpr ⟨x, hx, hpx⟩
      rw [h] at this
      exact Bool.false_ne_true this

theorem getField_setField_ne (d : Doc) (k k' v : String) (hne : k' ≠ k) :
    getField (setField d k' v) k = getField d k := by
  unfold setField
  cases h : (d.any fun p => p.1 == k') with
  | true =>
    rw [if_pos rfl]
    simp only [getField, find?_map_replace_ne d k k' v hne]
  | false =>
    rw [if_neg (by simp)]
    simp only [getField, List.find?_append]
    rw [List.find?_cons_of_neg _ (by simp [hne]), show (List.find? (fun p => p.1 == k) [] : Option (String × String)) = none from rfl, Option.or_none]

theorem getField_mongoSet_of_not_key (d : Doc) (patch : Doc) (k : String)
    (h : ∀ kv ∈ patch, kv.1 ≠ k) :
    getField (mongoSet d patch) k = getField d k := by
  induction patch generalizing d with
  | nil => rfl
  | cons kv rest ih =>
    have h1 : kv.1 ≠ k := h kv (List.mem_cons_self kv rest)
    have hrest : ∀ p ∈ rest, p.1 ≠ k := fun p hp => h p (List.mem_cons_of_mem kv hp)
    simp only [mongoSet, List.foldl_cons]
    rw [show rest.foldl (fun acc p => setField acc p.1 p.2) (setField d kv.1 kv.2) =
          mongoSet (setField d kv.1 kv.2) rest from rfl,
        ih (setField d kv.1 kv.2) hrest, getField_setField_ne d k kv.1 kv.2 h1]

theorem getField_mongoSet_of_mem (d : Doc) (patch : Doc) (k v : String)
    (hnd : (patch.map Prod.fst).Nodup) (h : (k, v) ∈ patch) :
    getField (mongoSet d patch) k = some v := by
  induction patch generalizing d with
  | nil => cases h
  | cons kv rest ih =>
    rw [List.map_cons, List.nodup_cons] at hnd
    have step : mongoSet d (kv :: rest) = mongoSet (setField d kv.1 kv.2) rest := rfl
    rcases List.mem_cons.mp h with h1 | h1
    · have hrest : ∀ p ∈ rest, p.1 ≠ k := by
        intro p hp e
        refine hnd.1 ?_
        have hm : p.1 ∈ rest.map Prod.fst := List.mem_map_of_mem Prod.fst hp
        rw [e] at hm
        have hk : kv.1 = k := by rw [← h1]
        rw [hk]
        exact hm
      rw [step, getField_mongoSet_of_not_key _ rest k hrest,
          show setField d kv.1 kv.2 = setField d k v from by rw [← h1], getField_setField]
    · rw [step]
      exact ih (setField d kv.1 kv.2) hnd.2 h1

/-! ### Lemmas about the collection operations -/

theorem updateFirstById_append (pre : List Doc) (d : Doc) (post : List Doc)
    (id : String) (patch : Doc)
    (hpre : ∀ x ∈ pre, getField x "_id" ≠ some id)
    (hd : getField d "_id" = some id) :
    updateFirstById (pre ++ d :: post) id patch = pre ++ mongoSet d patch :: post := by
  induction pre with
  | nil =>
    simp only [List.nil_append, updateFirstById]
    rw [if_pos (by simp [hd])]
  | cons x xs ih =>
    have hx : ¬((getField x "_id" == some id) = true) := by
      simp [hpre x (List.mem_cons_self x xs)]
    simp only [List.cons_append, updateFirstById]
    rw [if_neg hx]
    simp only [List.append_eq]
    rw [ih (fun y hy => hpre y (List.mem_cons_of_mem x hy))]

theorem deleteFirstById_append (pre : List Doc) (d : Doc) (post : List Doc)
    (id : String)
    (hpre : ∀ x ∈ pre, getField x "_id" ≠ some id)
    (hd : getField d "_id" = some id) :
    deleteFirstById (pre ++ d :: post) id = pre ++ post := by
  induction pre with
  | nil =>
    simp only [List.nil_append, deleteFirstById]
    rw [if_pos (by simp [hd])]
  | cons x xs ih =>
    have hx : ¬((getField x "_id" == some id) = true) := by
      simp [hpre x (List.mem_cons_self x xs)]
    simp only [List.cons_append, deleteFirstById]
    rw [if_neg hx]
    simp only [List.append_eq]
    rw [ih (fun y hy => hpre y (List.mem_cons_of_mem x hy))]

theorem any_id_of_mem (cars : List Doc) (d : Doc) (id : String)
    (hmem : d ∈ cars) (hd : getField d "_id" = some id) :
    cars.any (fun x => getField x "_id" == some id) = true :=
  List.any_eq_true.mpr ⟨d, hmem, by simp [hd]⟩

theorem statusMap_updateFirstById (cars : List Doc) (id : String) (patch : Doc)
    (h : ∀ kv ∈ patch, kv.1 ≠ "status") :
    (updateFirstById cars id patch).map (fun d => getField d "status") =
      cars.map (fun d => getField d "status") := by
  induction cars with
  | nil => rfl
  | cons d ds ih =>
    cases hd : (getField d "_id" == some id) with
    | true =>
      simp only [updateFirstById]
      rw [if_pos hd, List.map_cons, List.map_cons, getField_mongoSet_of_not_key d patch _ h]
    | false =>
      simp only [updateFirstById]
      rw [if_neg (by simp [hd]), List.map_cons, List.map_cons, ih]

theorem status_or_booked_updateFirstById (cars : List Doc) (cid : String) :
    List.Forall₂
      (fun d d' => getField d' "status" = getField d "status" ∨ getField d' "status" = some "Booked")
      cars (updateFirstById cars cid [("status", "Booked")]) := by
  induction cars with
  | nil => exact List.Forall₂.nil
  | cons d ds ih =>
    cases hd : (getField d "_id" == some cid) with
    | true =>
      simp only [updateFirstById]
      rw [if_pos hd]
      refine List.Forall₂.cons (Or.inr ?_) (List.forall₂_same.mpr fun x _ => Or.inl rfl)
      show getField (setField d "status" "Booked") "status" = some "Booked"
      exact getField_setField d "status" "Booked"
    | false =>
      simp only [updateFirstById]
      rw [if_neg (by simp [hd])]
      exact List.Forall₂.cons (Or.inl rfl) ih

theorem status_or_booked_updateCarStatusBooked (cars : List Doc) (cid : Option String) :
    List.Forall₂
      (fun d d' => getField d' "status" = getField d "status" ∨ getField d' "status" = some "Booked")
      cars (updateCarStatusBooked cars cid) := by
  cases cid with
  | none => exact List.forall₂_same.mpr fun x _ => Or.inl rfl
  | some cid => exact status_or_booked_updateFirstById cars cid

theorem isActiveBookingFor_iff (cid : Option String) (d : Doc) :
    isActiveBookingFor cid d = true ↔
      (getField d "carId" = cid ∧ getField d "status" = some "Booked") := by
  simp [isActiveBookingFor]

theorem find?_active_eq_none (cid : Option String) (bs : List Doc)
    (h : ∀ d ∈ bs, ¬(getField d "carId" = cid ∧ getField d "status" = some "Booked")) :
    bs.find? (isActiveBookingFor cid) = none :=
  List.find?_eq_none.mpr fun d hd hpd => h d hd ((isActiveBookingFor_iff cid d).mp hpd)

/-- The number of user records carrying a given email value. -/
def emailCount (e : Option String) (us : List Doc) : Nat :=
  (us.filter (fun d => getField d "email" == e)).length

theorem find?_email_eq_none (e : Option String) (us : List Doc)
    (h : emailCount e us = 0) :
    us.find? (fun d => getField d "email" == e) = none := by
  refine List.find?_eq_none.mpr fun d hd hpd => ?_
  have hmem : d ∈ us.filter (fun d => getField d "email" == e) :=
    List.mem_filter.mpr ⟨hd, hpd⟩
  unfold emailCount at h
  rw [List.length_eq_zero] at h
  rw [h] at hmem
  cases hmem

/-! ### Lemmas about the guard's token extraction -/

theorem get?_zero_eq_head? {α : Type} (l : List α) : l.get? 0 = l.head? := by
  cases l <;> rfl

theorem jsSplit_ne_nil (sep : Char) (l : List Char) : jsSplit sep l ≠ [] := by
  cases l with
  | nil => simp [jsSplit]
  | cons c cs =>
    cases h : (c == sep) with
    | true => simp [jsSplit, h]
    | false =>
      simp only [jsSplit]
      rw [if_neg (by simp [h])]
      cases hs : jsSplit sep cs <;> simp

theorem jsSplit_head? (sep : Char) (l : List Char) :
    (jsSplit sep l).head? = some (l.takeWhile (fun c => !(c == sep))) := by
  induction l with
  | nil => rfl
  | cons c cs ih =>
    cases h : (c == sep) with
    | true =>
      simp only [jsSplit]
      rw [if_pos h, List.takeWhile_cons]
      rw [if_neg (by simp [h])]
      rfl
    | false =>
      simp only [jsSplit]
      rw [if_neg (by simp [h])]
      cases hs : jsSplit sep cs with
      | nil => exact absurd hs (jsSplit_ne_nil sep cs)
      | cons f rest =>
        rw [List.takeWhile_cons, if_pos (by simp [h])]
        have hih := ih
        rw [hs, List.head?_cons] at hih
        exact congrArg (fun l => some (c :: l)) (Option.some.inj hih)

theorem jsSplit_get?_one (sep : Char) (l : List Char) :
    (jsSplit sep l).get? 1 =
      if l.contains sep then
        some (((l.dropWhile (fun c => !(c == sep))).drop 1).takeWhile (fun c => !(c == sep)))
      else none := by
  induction l with
  | nil => rfl
  | cons c cs ih =>
    cases h : (c == sep) with
    | true =>
      have hc : (sep == c) = true := by
        simp only [beq_iff_eq] at h ⊢
        exact h.symm
      simp only [jsSplit]
      rw [if_pos h, List.get?_cons_succ, get?_zero_eq_head?, jsSplit_head?,
          List.contains_cons, hc, Bool.true_or, if_pos rfl, List.dropWhile_cons,
          if_neg (by simp [h]), List.drop_succ_cons, List.drop_zero]
    | false =>
      have hsep : (sep == c) = false := by
        simp only [beq_eq_false_iff_ne] at h ⊢
        exact fun e => h e.symm
      simp only [jsSplit]
      rw [if_neg (by simp [h])]
      cases hs : jsSplit sep cs with
      | nil => exact absurd hs (jsSplit_ne_nil sep cs)
      | cons f rest =>
        rw [List.contains_cons, hsep, Bool.false_or, List.dropWhile_cons,
            if_pos (show (!(c == sep)) = true by simp [h])]
        have hih := ih
        rw [hs, List.get?_cons_succ] at hih
        exact hih

/-- The second space-delimited field of a header: the characters after the
first space, truncated at the next space; `none` when there is no space. -/
def secondField (h : String) : Option String :=
  if h.data.contains ' ' then
    some ((((h.data.dropWhile (fun c => !(c == ' '))).drop 1).takeWhile
      (fun c => !(c == ' '))).asString)
  else none

theorem extractToken_eq_secondField (h : String) :
    extractToken h = secondField h := by
  unfold extractToken secondField
  rw [jsSplit_get?_one]
  cases hc : h.data.contains ' ' with
  | true => rw [if_pos rfl, if_pos rfl]; rfl
  | false => rw [if_neg (by simp), if_neg (by simp)]; rfl

/-- Modelled from the spec (§4.2): the bearer token is "the substring after
the first space in an `Authorization` header"; `none` when there is no
space. -/
def afterFirstSpace (h : String) : Option String :=
  if h.data.contains ' ' then
    some (((h.data.dropWhile (fun c => !(c == ' '))).drop 1).asString)
  else none

/-- Modelled from the spec (§4.2): the Access Guard as the spec words it —
an absent header fails with 401, otherwise the substring after the first
space is verified, failing with 403, else the claim is attached. -/
def verifyJWTSpec (verify : Option String → Option Doc) (authHeader : Option String) :
    GuardResult :=
  match authHeader with
  | none => .unauthorized
  | some h =>
    match verify (afterFirstSpace h) with
    | none => .forbidden
    | some decoded => .proceed decoded

/-- A concrete verifier accepting exactly the token string `"a"`. -/
def cexVerify : Option String → Option Doc :=
  fun t => if t == some "a" then some [("email", "x")] else none

/-! ### Lemmas relating `$regex` search to substring containment -/

/-- Substring containment of character lists: some contiguous run of `text`
equals `pat`. -/
def containsSub (pat : List Char) : List Char → Bool
  | [] => pat.isEmpty
  | c :: cs => pat.isPrefixOf (c :: cs) || containsSub pat cs

/-- Modelled from the spec (§4.3): "case-insensitive substring match on
name". -/
def ciSubstring (pat text : String) : Bool :=
  containsSub (pat.data.map Char.toLower) (text.data.map Char.toLower)

/-- The regular-expression metacharacters; a query avoiding all of them is
a literal pattern, for which `$regex` degenerates to substring search. -/
def regexMetachars : List Char :=
  ['\\', '.', '^', '$', '*', '+', '?', '(', ')', '[', ']', '\x7b', '\x7d', '|']

theorem regexMatchHere_eq_isPrefixOf (pat text : List Char) (hdot : '.' ∉ pat) :
    regexMatchHere pat text = (pat.map Char.toLower).isPrefixOf (text.map Char.toLower) := by
  induction pat generalizing text with
  | nil => cases text <;> rfl
  | cons p ps ih =>
    cases text with
    | nil => rfl
    | cons c cs =>
      have hp : (p == '.') = false := by
        simp only [beq_eq_false_iff_ne]
        exact fun e => hdot (e ▸ List.mem_cons_self p ps)
      have hps : '.' ∉ ps := fun hm => hdot (List.mem_cons_of_mem p hm)
      simp only [regexMatchHere, regexCharMatches, hp, Bool.false_or, List.map_cons]
      rw [show (p.toLower :: ps.map Char.toLower).isPrefixOf (c.toLower :: cs.map Char.toLower) =
            ((p.toLower == c.toLower) && (ps.map Char.toLower).isPrefixOf (cs.map Char.toLower))
          from rfl,
          ih cs hps]

theorem regexSearch_eq_containsSub (pat text : List Char) (hdot : '.' ∉ pat) :
    regexSearch pat text = containsSub (pat.map Char.toLower) (text.map Char.toLower) := by
  induction text with
  | nil => cases pat <;> rfl
  | cons c cs ih =>
    simp only [regexSearch, List.map_cons, containsSub]
    rw [regexMatchHere_eq_isPrefixOf pat (c :: cs) hdot, ih, List.map_cons]

theorem regexSearch_nil_pattern (text : List Char) : regexSearch [] text = true := by
  cases text <;> rfl

/-! ### Concrete documents and stores used by witnesses and counterexamples -/

/-- An available listing. -/
def raceCar : Doc :=
  [("_id", "car1"), ("providerEmail", "p@x"), ("name", "Toyota"), ("status", "Available")]

/-- A `POST /bookings` payload for `raceCar` from user `u`. -/
def raceBooking (u : String) : Doc :=
  [("carId", "car1"), ("userEmail", u), ("status", "Booked")]

/-- Two concurrent booking requests for the same available listing, both
about to run their conflict check. -/
def raceInit : ConcState :=
  ⟨⟨[raceCar], [], []⟩, [⟨raceBooking "u1", .checking⟩, ⟨raceBooking "u2", .checking⟩]⟩

/-- An already `Booked` listing. -/
def bookedCar : Doc :=
  [("_id", "car1"), ("providerEmail", "p@x"), ("name", "Toyota"), ("status", "Booked")]

/-- A listing owned by `a@x`. -/
def aliceCar : Doc :=
  [("_id", "c1"), ("providerEmail", "a@x"), ("name", "Toyota"), ("status", "Available")]

/-- A listing named `Honda`. -/
def hondaCar : Doc := [("_id", "c2"), ("name", "Honda"), ("providerEmail", "p@x")]

/-- A listing without a `name` field. -/
def namelessCar : Doc := [("_id", "c3"), ("providerEmail", "p@x")]

/-- A listing named `Toyota Corolla`. -/
def toyotaCar : Doc := [("_id", "c4"), ("name", "Toyota Corolla"), ("providerEmail", "p@x")]

/-- A listing named `Honda Civic`. -/
def civicCar : Doc := [("_id", "c5"), ("name", "Honda Civic"), ("providerEmail", "p@x")]

/-- An active booking of `raceCar`. -/
def demoBooking : Doc := [("carId", "car1"), ("userEmail", "u@x"), ("status", "Booked")]

/-- A booking payload for `raceCar` whose own status is not `Booked`. -/
def pendingBooking : Doc := [("carId", "car1"), ("userEmail", "u1"), ("status", "Pending")]

/-- A user profile. -/
def demoUser : Doc := [("email", "u@x"), ("name", "U")]

/-! ### The claims -/

/-- The interleaving model agrees with the sequential handler: giving a
single request all three of its micro-steps produces exactly the store
`postBooking` produces, and the request ends in the phase matching
`postBooking`'s response. -/
theorem runSchedule_single_agrees (decoded booking : Doc) (st : Store) :
    (runSchedule ⟨st, [⟨booking, .checking⟩]⟩ [0, 0, 0]).store =
      (postBooking decoded booking st).2 ∧
    (runSchedule ⟨st, [⟨booking, .checking⟩]⟩ [0, 0, 0]).ops =
      [⟨booking, match (postBooking decoded booking st).1 with
                 | .errResp _ _ => BookPhase.doneConflict
                 | _ => BookPhase.doneSuccess⟩] := by
  cases hfind : st.bookings.find? (isActiveBookingFor (getField booking "carId")) with
  | some b =>
    have hpost : postBooking decoded booking st =
        (.errResp 400 "This car is already booked", st) := by
      unfold postBooking
      rw [hfind]
    rw [hpost]
    refine ⟨?_, ?_⟩ <;> simp [runSchedule, bookStep, stepOp, hfind]
  | none =>
    have hpost : postBooking decoded booking st =
        (.okInsert st.bookings.length,
         { st with
            bookings := st.bookings ++ [booking],
            cars := updateCarStatusBooked st.cars (getField booking "carId") }) := by
      unfold postBooking
      rw [hfind]
    rw [hpost]
    refine ⟨?_, ?_⟩ <;> simp [runSchedule, bookStep, stepOp, hfind]

/-- **C1.** The claim states that every interleaving of N concurrent
`book` requests for one listing yields exactly one success and N−1
conflicts.  The code's check-then-act sequence violates this: with two
concurrent requests for the available listing `car1`, the schedule in
which both `findOne` conflict checks run before either `insertOne` ends
with both requests successful and two `Booked` bookings of `car1` stored,
while the fully sequential schedule of the same two requests ends with one
success and one conflict. -/
theorem C1_race_two_successes :
    (runSchedule raceInit [0, 1, 0, 0, 1, 1]).ops.map (fun o => o.phase) =
      [.doneSuccess, .doneSuccess] ∧
    ((runSchedule raceInit [0, 1, 0, 0, 1, 1]).store.bookings.filter
        (isActiveBookingFor (some "car1"))).length = 2 ∧
    (runSchedule raceInit [0, 0, 0, 1, 1, 1]).ops.map (fun o => o.phase) =
      [.doneSuccess, .doneConflict] := by
  decide

/-- **C2.** Run in isolation, `POST /bookings` follows the spec's
algorithm: if the bookings collection holds a record with the same listing
identifier and status `Booked` it fails with 400 and mutates no
collection; otherwise it inserts the candidate booking, updates the
referenced listing's status to `Booked`, and returns the insertion
result. -/
theorem C2_book_isolated (decoded booking : Doc) (s : Store) :
    ((∃ d ∈ s.bookings, getField d "carId" = getField booking "carId" ∧
        getField d "status" = some "Booked") →
      postBooking decoded booking s = (.errResp 400 "This car is already booked", s)) ∧
    ((∀ d ∈ s.bookings, ¬(getField d "carId" = getField booking "carId" ∧
        getField d "status" = some "Booked")) →
      postBooking decoded booking s =
        (.okInsert s.bookings.length,
         { s with
            bookings := s.bookings ++ [booking],
            cars := updateCarStatusBooked s.cars (getField booking "carId") })) := by
  constructor
  · rintro ⟨d, hd, hprop⟩
    have hsome : (s.bookings.find? (isActiveBookingFor (getField booking "carId"))).isSome :=
      List.find?_isSome.mpr ⟨d, hd, (isActiveBookingFor_iff _ d).mpr hprop⟩
    obtain ⟨b, hb⟩ := Option.isSome_iff_exists.mp hsome
    unfold postBooking
    rw [hb]
  · intro h
    unfold postBooking
    rw [find?_active_eq_none _ _ h]

/-- Witness for C2: a conflicting store rejects the booking unchanged; a
conflict-free store accepts it and books the car. -/
theorem C2_book_isolated_witness :
    postBooking [("email", "u@x")] demoBooking ⟨[raceCar], [demoBooking], []⟩ =
      (.errResp 400 "This car is already booked", ⟨[raceCar], [demoBooking], []⟩) ∧
    postBooking [("email", "u@x")] demoBooking ⟨[raceCar], [], []⟩ =
      (.okInsert 0,
       { cars := updateCarStatusBooked [raceCar] (getField demoBooking "carId"),
         bookings := [demoBooking], users := [] }) :=
  ⟨(C2_book_isolated [("email", "u@x")] demoBooking ⟨[raceCar], [demoBooking], []⟩).1
      (by decide),
   (C2_book_isolated [("email", "u@x")] demoBooking ⟨[raceCar], [], []⟩).2 (by decide)⟩

/-- **C3 counterexample.** The claim says no operation other than the
booking engine changes a listing's `status`.  But `PUT /cars/:id` applies
its whole request body with `$set`, so a patch containing a `status` field
rewrites it: updating the booked listing `car1` with
`{status: "Available"}` under any valid claim flips its status from
`Booked` to `Available` — a transition neither `Available → Booked` nor
performed by the booking engine. -/
theorem C3_counterexample :
    getField bookedCar "status" = some "Booked" ∧
    ((putCar [("email", "someone@y")] "car1" [("status", "Available")]
        ⟨[bookedCar], [], []⟩).2.cars.map (fun d => getField d "status")) =
      [some "Available"] := by
  decide

/-- **C3 (amended).** A listing's status is changed by the booking
engine's update, which only ever writes the value `Booked`, and also by
the listing update operation whenever its patch contains a `status` field
(the patch is applied verbatim): an update whose patch has no `status`
field leaves every listing's status unchanged, and a book leaves every
listing's status either unchanged or equal to `Booked`. -/
theorem C3_amended (decoded : Doc) (id : String) (patch : Doc) (booking : Doc) (s : Store)
    (hp : ∀ kv ∈ patch, kv.1 ≠ "status") :
    ((putCar decoded id patch s).2.cars.map (fun d => getField d "status")) =
      s.cars.map (fun d => getField d "status") ∧
    List.Forall₂
      (fun d d' =>
        getField d' "status" = getField d "status" ∨ getField d' "status" = some "Booked")
      s.cars (postBooking decoded booking s).2.cars := by
  constructor
  · exact statusMap_updateFirstById s.cars id patch hp
  · cases hfind : s.bookings.find? (isActiveBookingFor (getField booking "carId")) with
    | some b =>
      have hcars : (postBooking decoded booking s).2.cars = s.cars := by
        unfold postBooking
        rw [hfind]
      rw [hcars]
      exact List.forall₂_same.mpr fun x _ => Or.inl rfl
    | none =>
      have hcars : (postBooking decoded booking s).2.cars =
          updateCarStatusBooked s.cars (getField booking "carId") := by
        unfold postBooking
        rw [hfind]
      rw [hcars]
      exact status_or_booked_updateCarStatusBooked s.cars _

/-- Witness for the amended C3: a status-free patch on the booked listing
leaves its status alone, and booking the listing can only set statuses to
`Booked`. -/
theorem C3_amended_witness :
    ((putCar [("email", "e@y")] "car1" [("price", "99")] ⟨[bookedCar], [], []⟩).2.cars.map
        (fun d => getField d "status")) =
      [bookedCar].map (fun d => getField d "status") ∧
    List.Forall₂
      (fun d d' =>
        getField d' "status" = getField d "status" ∨ getField d' "status" = some "Booked")
      [bookedCar]
      (postBooking [("email", "e@y")] (raceBooking "u1") ⟨[bookedCar], [], []⟩).2.cars :=
  C3_amended [("email", "e@y")] "car1" [("price", "99")] (raceBooking "u1")
    ⟨[bookedCar], [], []⟩ (by decide)

/-- **C4.** Ownership isolation: under a valid claim for email A, querying
`/my-listings` or `/bookings` for a different email B fails 403 with no
records and no mutation, while querying for A itself returns exactly the
listings whose `providerEmail` (respectively bookings whose `userEmail`)
equals A. -/
theorem C4_ownership_isolation (decoded : Doc) (A B : String) (s : Store)
    (hA : getField decoded "email" = some A) :
    (A ≠ B →
      getMyListings decoded B s = (.errResp 403 "Forbidden access", s) ∧
      getBookings decoded B s = (.errResp 403 "Forbidden access", s)) ∧
    (getMyListings decoded A s =
      (.okDocs (s.cars.filter (fun d => getField d "providerEmail" == some A)), s) ∧
     ∀ d, d ∈ s.cars.filter (fun d => getField d "providerEmail" == some A) ↔
        (d ∈ s.cars ∧ getField d "providerEmail" = some A)) ∧
    (getBookings decoded A s =
      (.okDocs (s.bookings.filter (fun d => getField d "userEmail" == some A)), s) ∧
     ∀ d, d ∈ s.bookings.filter (fun d => getField d "userEmail" == some A) ↔
        (d ∈ s.bookings ∧ getField d "userEmail" = some A)) := by
  refine ⟨fun hne => ⟨?_, ?_⟩, ⟨?_, ?_⟩, ⟨?_, ?_⟩⟩
  · unfold getMyListings
    rw [hA, if_pos (by simp [hne])]
  · unfold getBookings
    rw [hA, if_pos (by simp [hne])]
  · unfold getMyListings
    rw [hA, if_neg (by simp)]
  · intro d
    simp [List.mem_filter]
  · unfold getBookings
    rw [hA, if_neg (by simp)]
  · intro d
    simp [List.mem_filter]

/-- Witness for C4: with a claim for `a@x`, querying `b@x` is rejected and
querying `a@x` returns Alice's listings. -/
theorem C4_ownership_isolation_witness :
    getMyListings [("email", "a@x")] "b@x" ⟨[aliceCar], [], []⟩ =
      (.errResp 403 "Forbidden access", ⟨[aliceCar], [], []⟩) ∧
    getMyListings [("email", "a@x")] "a@x" ⟨[aliceCar], [], []⟩ =
      (.okDocs ([aliceCar].filter (fun d => getField d "providerEmail" == some "a@x")),
       ⟨[aliceCar], [], []⟩) :=
  ⟨((C4_ownership_isolation [("email", "a@x")] "a@x" "b@x" ⟨[aliceCar], [], []⟩ rfl).1
      (by decide)).1,
   ((C4_ownership_isolation [("email", "a@x")] "a@x" "b@x" ⟨[aliceCar], [], []⟩ rfl).2).1.1⟩

/-- **C5 counterexample.** The claim says the bearer token is the
substring after the first space, and that a present header whose token
fails verification yields 403.  Both fail on the code: with a verifier
accepting exactly `"a"`, the header `"Bearer a b"` is let through by the
code (it verifies `split(' ')[1] = "a"`, not the after-first-space
substring `"a b"`, which the verifier rejects), and the present-but-empty
header `""` is rejected 401 by the code's falsy check where the claim
predicts 403. -/
theorem C5_counterexample :
    verifyJWT cexVerify (some "Bearer a b") = .proceed [("email", "x")] ∧
    afterFirstSpace "Bearer a b" = some "a b" ∧
    cexVerify (some "a b") = none ∧
    verifyJWTSpec cexVerify (some "Bearer a b") = .forbidden ∧
    verifyJWT cexVerify (some "") = .unauthorized ∧
    verifyJWTSpec cexVerify (some "") = .forbidden := by
  decide

/-- **C5 (amended).** An absent — or empty — `Authorization` header fails
with 401; otherwise the bearer token is the second space-delimited field
of the header (the characters after the first space up to the next space,
none if the header has no space); if verification of that token fails the
request fails with 403, and if it succeeds the decoded claim is attached
and the handler proceeds, the guard having no other effect. -/
theorem C5_amended (verify : Option String → Option Doc) (h : String) (hne : h ≠ "") :
    verifyJWT verify none = .unauthorized ∧
    verifyJWT verify (some "") = .unauthorized ∧
    (verify (secondField h) = none → verifyJWT verify (some h) = .forbidden) ∧
    (∀ d, verify (secondField h) = some d → verifyJWT verify (some h) = .proceed d) := by
  refine ⟨rfl, rfl, ?_, ?_⟩
  · intro hv
    show (if (h == "") = true then GuardResult.unauthorized
          else match verify (extractToken h) with
               | none => GuardResult.forbidden
               | some decoded => GuardResult.proceed decoded) = GuardResult.forbidden
    rw [if_neg (by simp [hne]), extractToken_eq_secondField, hv]
  · intro d hv
    show (if (h == "") = true then GuardResult.unauthorized
          else match verify (extractToken h) with
               | none => GuardResult.forbidden
               | some decoded => GuardResult.proceed decoded) = GuardResult.proceed d
    rw [if_neg (by simp [hne]), extractToken_eq_secondField, hv]

/-- Witness for the amended C5: the guard forwards `"Bearer a"` with the
decoded claim when the verifier accepts `"a"`. -/
theorem C5_amended_witness :
    ("Bearer a" ≠ "") ∧
    verifyJWT cexVerify (some "Bearer a") = .proceed [("email", "x")] :=
  ⟨by decide,
   (C5_amended cexVerify "Bearer a" (by decide)).2.2.2 [("email", "x")] (by decide)⟩

/-- **C6 counterexample.** The claim says `search(X)` returns exactly the
listings whose name contains X as a case-insensitive substring, and that
the empty query returns all listings.  The code hands the query to
`$regex`, so `search(".")` returns the listing named `Honda` although "."
is not a substring of "Honda"; and a listing without a `name` field is
returned by no query, the empty one included. -/
theorem C6_counterexample :
    (getSearch (some ".") ⟨[hondaCar], [], []⟩).1 = .okDocs [hondaCar] ∧
    ciSubstring "." "Honda" = false ∧
    (getSearch (some "") ⟨[hondaCar, namelessCar], [], []⟩).1 = .okDocs [hondaCar] := by
  decide

/-- **C6 (amended).** For query strings free of regular-expression
metacharacters, `search` returns exactly the stored listings whose name
contains the query as a case-insensitive substring — listings without a
name are never returned; an absent query behaves as the empty query, which
returns exactly the listings that have a name.  (Other queries are
interpreted as regular expressions.) -/
theorem C6_amended (q : String) (s : Store)
    (hq : ∀ c ∈ q.data, c ∉ regexMetachars) :
    (getSearch (some q) s).1 =
      .okDocs (s.cars.filter (fun d =>
        match getField d "name" with
        | some n => ciSubstring q n
        | none => false)) ∧
    (getSearch (some q) s).2 = s ∧
    getSearch none s = getSearch (some "") s ∧
    (getSearch none s).1 = .okDocs (s.cars.filter (fun d => (getField d "name").isSome)) := by
  have hdot : '.' ∉ q.data := fun hm => absurd (by decide : '.' ∈ regexMetachars) (hq '.' hm)
  refine ⟨?_, rfl, rfl, ?_⟩
  · unfold getSearch
    rw [List.filter_congr]
    intro d _
    unfold nameMatches
    cases hname : getField d "name" with
    | none => rfl
    | some n => exact regexSearch_eq_containsSub q.data n.data hdot
  · unfold getSearch
    rw [List.filter_congr]
    intro d _
    unfold nameMatches
    cases hname : getField d "name" with
    | none => rfl
    | some n =>
      show regexSearch [] n.data = true
      exact regexSearch_nil_pattern n.data

/-- Witness for the amended C6: searching `"toy"` among `Toyota Corolla`
and `Honda Civic` returns only the former. -/
theorem C6_amended_witness :
    (∀ c ∈ "toy".data, c ∉ regexMetachars) ∧
    (getSearch (some "toy") ⟨[toyotaCar, civicCar], [], []⟩).1 = .okDocs [toyotaCar] := by
  refine ⟨by decide, ?_⟩
  rw [(C6_amended "toy" ⟨[toyotaCar, civicCar], [], []⟩ (by decide)).1]
  decide

/-- **C7.** Registration is idempotent on email: from a store holding no
user with the candidate's email, the first registration inserts the
profile, the second returns the "exists" notice with no mutation, and
exactly one user record with that email remains. -/
theorem C7_idempotent_registration (user : Doc) (s : Store)
    (h0 : emailCount (getField user "email") s.users = 0) :
    postUsers user s = (.okInsert s.users.length, { s with users := s.users ++ [user] }) ∧
    postUsers user { s with users := s.users ++ [user] } =
      (.okMsg "User already exists", { s with users := s.users ++ [user] }) ∧
    emailCount (getField user "email") (s.users ++ [user]) = 1 := by
  have hnone : s.users.find? (fun d => getField d "email" == getField user "email") = none :=
    find?_email_eq_none _ _ h0
  refine ⟨?_, ?_, ?_⟩
  · unfold postUsers
    rw [hnone]
  · have hfound : (s.users ++ [user]).find?
        (fun d => getField d "email" == getField user "email") = some user := by
      rw [List.find?_append, hnone, Option.none_or,
          List.find?_cons_of_pos _ (by simp)]
    unfold postUsers
    rw [show ({ s with users := s.users ++ [user] } : Store).users = s.users ++ [user]
          from rfl, hfound]
  · unfold emailCount at h0 ⊢
    rw [List.filter_append, List.length_append, h0]
    simp [List.filter_cons]

/-- Witness for C7: registering `demoUser` into an empty store inserts it,
and one record with its email remains after a second registration. -/
theorem C7_idempotent_registration_witness :
    postUsers demoUser ⟨[], [], []⟩ = (.okInsert 0, ⟨[], [], [demoUser]⟩) ∧
    postUsers demoUser ⟨[], [], [demoUser]⟩ =
      (.okMsg "User already exists", ⟨[], [], [demoUser]⟩) ∧
    emailCount (getField demoUser "email") [demoUser] = 1 :=
  ⟨(C7_idempotent_registration demoUser ⟨[], [], []⟩ (by decide)).1,
   (C7_idempotent_registration demoUser ⟨[], [], []⟩ (by decide)).2.1,
   (C7_idempotent_registration demoUser ⟨[], [], []⟩ (by decide)).2.2⟩

/-- **C8.** Update and delete of a listing never consult the requester's
claim: for any two claims the results coincide, the update merges the
patch fields into the stored document (matched count 1), and the delete
removes it (deleted count 1) — with no hypothesis relating the claim's
email to the listing's `providerEmail`. -/
theorem C8_no_ownership_check (c c' : Doc) (id : String) (patch : Doc)
    (pre : List Doc) (d : Doc) (post : List Doc) (s : Store)
    (hsplit : s.cars = pre ++ d :: post)
    (hpre : ∀ x ∈ pre, getField x "_id" ≠ some id)
    (hd : getField d "_id" = some id)
    (hnd : (patch.map Prod.fst).Nodup) :
    putCar c id patch s = putCar c' id patch s ∧
    deleteCar c id s = deleteCar c' id s ∧
    putCar c id patch s = (.okUpdate 1, { s with cars := pre ++ mongoSet d patch :: post }) ∧
    deleteCar c id s = (.okDelete 1, { s with cars := pre ++ post }) ∧
    (∀ k v, (k, v) ∈ patch → getField (mongoSet d patch) k = some v) ∧
    (∀ k, (∀ kv ∈ patch, kv.1 ≠ k) → getField (mongoSet d patch) k = getField d k) := by
  have hmem : d ∈ s.cars := by
    rw [hsplit]
    exact List.mem_append_right pre (List.mem_cons_self d post)
  have hany : s.cars.any (fun x => getField x "_id" == some id) = true :=
    any_id_of_mem s.cars d id hmem hd
  refine ⟨rfl, rfl, ?_, ?_, ?_, ?_⟩
  · unfold putCar
    rw [hany, if_pos rfl, hsplit, updateFirstById_append pre d post id patch hpre hd]
  · unfold deleteCar
    rw [hany, if_pos rfl, hsplit, deleteFirstById_append pre d post id hpre hd]
  · exact fun k v hkv => getField_mongoSet_of_mem d patch k v hnd hkv
  · exact fun k hk => getField_mongoSet_of_not_key d patch k hk

/-- Witness for C8: a requester whose email is not `aliceCar`'s
`providerEmail` still updates and deletes it. -/
theorem C8_no_ownership_check_witness :
    putCar [("email", "b@x")] "c1" [("price", "5")] ⟨[aliceCar], [], []⟩ =
      (.okUpdate 1,
       { cars := [] ++ mongoSet aliceCar [("price", "5")] :: [], bookings := [], users := [] }) ∧
    deleteCar [("email", "b@x")] "c1" ⟨[aliceCar], [], []⟩ = (.okDelete 1, ⟨[], [], []⟩) :=
  ⟨(C8_no_ownership_check [("email", "b@x")] [("email", "z@x")] "c1" [("price", "5")]
      [] aliceCar [] ⟨[aliceCar], [], []⟩ rfl (by decide) (by decide) (by decide)).2.2.1,
   (C8_no_ownership_check [("email", "b@x")] [("email", "z@x")] "c1" [("price", "5")]
      [] aliceCar [] ⟨[aliceCar], [], []⟩ rfl (by decide) (by decide) (by decide)).2.2.2.1⟩

/-- **C9.** The conflict check consults only the bookings collection
(records with the same `carId` and status `Booked`), never the listing's
own status, and the booking is stored verbatim: a successful booking whose
own status field is not `Booked` does not prevent a subsequent booking of
the same listing from also succeeding. -/
theorem C9_status_not_consulted (decoded b1 b2 : Doc) (cid : String) (s : Store)
    (h1 : getField b1 "carId" = some cid) (h2 : getField b2 "carId" = some cid)
    (hs1 : getField b1 "status" ≠ some "Booked")
    (h0 : ∀ d ∈ s.bookings,
      ¬(getField d "carId" = some cid ∧ getField d "status" = some "Booked")) :
    postBooking decoded b1 s =
      (.okInsert s.bookings.length,
       { s with
          bookings := s.bookings ++ [b1],
          cars := updateCarStatusBooked s.cars (some cid) }) ∧
    (postBooking decoded b2
       { s with
          bookings := s.bookings ++ [b1],
          cars := updateCarStatusBooked s.cars (some cid) }).1 =
      .okInsert (s.bookings.length + 1) := by
  have hn1 : s.bookings.find? (isActiveBookingFor (some cid)) = none :=
    find?_active_eq_none _ _ h0
  constructor
  · unfold postBooking
    rw [h1, hn1]
  · have h0' : ∀ d ∈ s.bookings ++ [b1],
        ¬(getField d "carId" = some cid ∧ getField d "status" = some "Booked") := by
      intro d hd
      rcases List.mem_append.mp hd with hd | hd
      · exact h0 d hd
      · rw [List.mem_singleton.mp hd]
        exact fun hcs => hs1 hcs.2
    have hn2 : (s.bookings ++ [b1]).find? (isActiveBookingFor (some cid)) = none :=
      find?_active_eq_none _ _ h0'
    unfold postBooking
    rw [h2, show ({ s with
          bookings := s.bookings ++ [b1],
          cars := updateCarStatusBooked s.cars (some cid) } : Store).bookings =
        s.bookings ++ [b1] from rfl, hn2]
    simp [List.length_append]

/-- Witness for C9: a `Pending` booking of `car1` succeeds and a second
booking of `car1` still succeeds afterwards. -/
theorem C9_status_not_consulted_witness :
    postBooking [("email", "u1")] pendingBooking ⟨[raceCar], [], []⟩ =
      (.okInsert 0,
       { cars := updateCarStatusBooked [raceCar] (some "car1"),
         bookings := [pendingBooking], users := [] }) ∧
    (postBooking [("email", "u1")] (raceBooking "u2")
       { cars := updateCarStatusBooked [raceCar] (some "car1"),
         bookings := [pendingBooking], users := [] }).1 = .okInsert 1 :=
  ⟨(C9_status_not_consulted [("email", "u1")] pendingBooking (raceBooking "u2") "car1"
      ⟨[raceCar], [], []⟩ rfl rfl (by decide) (by decide)).1,
   (C9_status_not_consulted [("email", "u1")] pendingBooking (raceBooking "u2") "car1"
      ⟨[raceCar], [], []⟩ rfl rfl (by decide) (by decide)).2⟩

/-- **C10.** The book operation never compares the candidate's `userEmail`
with the verified claim's email: under a valid claim for A, a conflict-free
payload with `userEmail` B ≠ A is accepted and stored with `userEmail` B,
after which it appears in B's `/bookings` result and not in A's. -/
theorem C10_claim_email_not_compared (dA dB b : Doc) (A B cid : String) (s : Store)
    (hdA : getField dA "email" = some A) (hdB : getField dB "email" = some B)
    (hb : getField b "userEmail" = some B) (hAB : A ≠ B)
    (hcid : getField b "carId" = some cid)
    (h0 : ∀ d ∈ s.bookings,
      ¬(getField d "carId" = some cid ∧ getField d "status" = some "Booked")) :
    postBooking dA b s =
      (.okInsert s.bookings.length,
       { s with
          bookings := s.bookings ++ [b],
          cars := updateCarStatusBooked s.cars (some cid) }) ∧
    getBookings dB B
        { s with
           bookings := s.bookings ++ [b],
           cars := updateCarStatusBooked s.cars (some cid) } =
      (.okDocs ((s.bookings ++ [b]).filter (fun d => getField d "userEmail" == some B)),
       { s with
          bookings := s.bookings ++ [b],
          cars := updateCarStatusBooked s.cars (some cid) }) ∧
    b ∈ (s.bookings ++ [b]).filter (fun d => getField d "userEmail" == some B) ∧
    getBookings dA A
        { s with
           bookings := s.bookings ++ [b],
           cars := updateCarStatusBooked s.cars (some cid) } =
      (.okDocs ((s.bookings ++ [b]).filter (fun d => getField d "userEmail" == some A)),
       { s with
          bookings := s.bookings ++ [b],
          cars := updateCarStatusBooked s.cars (some cid) }) ∧
    b ∉ (s.bookings ++ [b]).filter (fun d => getField d "userEmail" == some A) := by
  refine ⟨?_, ?_, ?_, ?_, ?_⟩
  · unfold postBooking
    rw [hcid, find?_active_eq_none _ _ h0]
  · unfold getBookings
    rw [hdB, if_neg (by simp)]
  · exact List.mem_filter.mpr
      ⟨List.mem_append_right _ (List.mem_cons_self b []), by simp [hb]⟩
  · unfold getBookings
    rw [hdA, if_neg (by simp)]
  · intro hmemA
    have hfA := (List.mem_filter.mp hmemA).2
    rw [hb] at hfA
    exact hAB (Option.some.inj (beq_iff_eq.mp hfA)).symm

/-- Witness for C10: a claim for `a@x` books with payload `userEmail`
`b@x`; the booking shows up for `b@x` and not for `a@x`. -/
theorem C10_claim_email_not_compared_witness :
    postBooking [("email", "a@x")] (raceBooking "b@x") ⟨[raceCar], [], []⟩ =
      (.okInsert 0,
       { cars := updateCarStatusBooked [raceCar] (some "car1"),
         bookings := [raceBooking "b@x"], users := [] }) ∧
    raceBooking "b@x" ∈
      ([raceBooking "b@x"].filter (fun d => getField d "userEmail" == some "b@x")) ∧
    raceBooking "b@x" ∉
      ([raceBooking "b@x"].filter (fun d => getField d "userEmail" == some "a@x")) :=
  ⟨(C10_claim_email_not_compared [("email", "a@x")] [("email", "b@x")] (raceBooking "b@x")
      "a@x" "b@x" "car1" ⟨[raceCar], [], []⟩ rfl rfl rfl (by decide) rfl (by decide)).1,
   (C10_claim_email_not_compared [("email", "a@x")] [("email", "b@x")] (raceBooking "b@x")
      "a@x" "b@x" "car1" ⟨[raceCar], [], []⟩ rfl rfl rfl (by decide) rfl (by decide)).2.2.1,
   (C10_claim_email_not_compared [("email", "a@x")] [("email", "b@x")] (raceBooking "b@x")
      "a@x" "b@x" "car1" ⟨[raceCar], [], []⟩ rfl rfl rfl (by decide) rfl (by decide)).2.2.2.2⟩

end RentWheels
